import Mathlib

/-!
Verification development for the agentio kernel: policy engine
(kernel-policy), content-addressed artifact store (kernel-artifact),
run lifecycle state machine (kernel-run) and control-state aggregation
(kernel-state), shallowly embedded from the TypeScript sources.

Impure clock calls (`now()`, `Date.now()`, `new Date(s).getTime()`) are
made explicit: functions that read the clock take the reading as an
argument (`ts : String` for ISO strings, `nowMs : Int` together with a
parse function `dateMs : String → Int` for millisecond arithmetic).
-/

namespace AgentKernel

-- ──────────────────────────────────────────────────────────────────────
-- Protocol types (packages/protocol/src/index.ts)
-- ──────────────────────────────────────────────────────────────────────

/-- The `PolicyDecision` — "ALLOW" | "DENY" | "REQUIRE_APPROVAL". -/
inductive PolicyDecision where
  | ALLOW
  | DENY
  | REQUIRE_APPROVAL
deriving DecidableEq, Repr

/-- The `PolicyRule` from the protocol package.  Optional TS fields become
`Option`. -/
structure PolicyRule where
  action : String
  scope : String
  decision : PolicyDecision
  reason : Option String := none
  condition : Option String := none
deriving DecidableEq, Repr

/-- The `RunBudgets`: `max_time_ms`/`max_tokens` required, the other two
optional (absent = unconstrained).  JS numbers are modelled as `Int`. -/
structure RunBudgets where
  max_time_ms : Int
  max_tokens : Int
  max_tool_calls : Option Int := none
  max_artifacts_mb : Option Int := none
deriving DecidableEq, Repr

/-- The `PolicyProfile`: named ordered rule list plus budgets. -/
structure PolicyProfile where
  name : String
  rules : List PolicyRule
  budgets : RunBudgets
deriving DecidableEq, Repr

/-- The `PolicyEvaluation` result record. -/
structure PolicyEvaluation where
  rule : Option PolicyRule
  decision : PolicyDecision
  reason : String
  timestamp : String
deriving DecidableEq, Repr

-- ──────────────────────────────────────────────────────────────────────
-- Policy engine (kernel-policy/src/index.ts)
-- ──────────────────────────────────────────────────────────────────────

/-- One token of the glob pattern after the source's regex construction:
the source escapes every regex metacharacter except `*` and `?` (so any
character other than `*`/`?` ends up as a literal), replaces `**` (leftmost,
non-overlapping) by a `.*` group, remaining single `*` by `[^/]*`, and `?`
by `[^/]`. -/
inductive GlobTok where
  | lit (c : Char)
  | star
  | qmark
  | globstar
deriving DecidableEq, Repr

/-- Tokenisation of a glob pattern, mirroring the source's sequence of
string replacements (escape metachars; `**` → globstar; `*` → star;
`?` → qmark; anything else a literal). -/
def globTokens : List Char → List GlobTok
  | [] => []
  | '*' :: '*' :: rest => .globstar :: globTokens rest
  | '*' :: rest => .star :: globTokens rest
  | '?' :: rest => .qmark :: globTokens rest
  | c :: rest => .lit c :: globTokens rest

/-- The four characters the `.` of a flagless JS `RegExp` does not match:
the line terminators LF, CR, LINE SEPARATOR and PARAGRAPH SEPARATOR. -/
def isLineTerminator (c : Char) : Bool :=
  c = '\n' || c = '\r' || c = ' ' || c = ' '

/-- Anchored matcher for the compiled pattern, fuelled so that it is
structurally recursive (every recursive call shrinks `ts.length + s.length`,
so any fuel above that sum gives the backtracking matcher's answer):
`lit c` matches exactly `c`, `qmark` matches one non-`/` character, `star`
matches zero or more non-`/` characters (the negated class `[^/]` of the
compiled regex matches line terminators too), `globstar` matches zero or
more characters other than line terminators — the source compiles `**` to
`.*` in a flagless `RegExp`, and `.` without the dot-all flag excludes
them. -/
def globMatchF : Nat → List GlobTok → List Char → Bool
  | 0, _, _ => false
  | _ + 1, [], [] => true
  | _ + 1, [], _ :: _ => false
  | _ + 1, .lit _ :: _, [] => false
  | f + 1, .lit c :: ts, d :: ds => c == d && globMatchF f ts ds
  | _ + 1, .qmark :: _, [] => false
  | f + 1, .qmark :: ts, d :: ds => decide (d ≠ '/') && globMatchF f ts ds
  | f + 1, .star :: ts, [] => globMatchF f ts []
  | f + 1, .star :: ts, d :: ds =>
      globMatchF f ts (d :: ds)
        || (decide (d ≠ '/') && globMatchF f (.star :: ts) ds)
  | f + 1, .globstar :: ts, [] => globMatchF f ts []
  | f + 1, .globstar :: ts, d :: ds =>
      globMatchF f ts (d :: ds)
        || (!isLineTerminator d && globMatchF f (.globstar :: ts) ds)

/-- The complete (backtracking) matcher for the compiled regex, applied to
the whole string (`^...$`). -/
def globMatch (ts : List GlobTok) (s : List Char) : Bool :=
  globMatchF (ts.length + s.length + 1) ts s

/-- The `matchesScope(pattern, scope)` — `*` matches anything, exact equality
matches, otherwise the glob-compiled regex must match the whole scope. -/
def matchesScope (pattern scope : String) : Bool :=
  if pattern == "*" then true
  else if pattern == scope then true
  else globMatch (globTokens pattern.data) scope.data

/-- Declarative glob semantics for comparison with the executable
matcher, following the spec's words amended in one place: the whole scope
is consumed (anchoring), a literal token matches exactly its character
(case-sensitively), `?` matches exactly one character other than `/`,
a single `*` matches zero or more characters excluding `/`, and `**`
matches zero or more characters including `/` but — as the flagless JS
`.` of the compiled regex dictates — excluding line terminators. -/
inductive GlobSem : List GlobTok → List Char → Prop where
  | nil : GlobSem [] []
  | lit {c : Char} {ts : List GlobTok} {ds : List Char} :
      GlobSem ts ds → GlobSem (.lit c :: ts) (c :: ds)
  | qmark {c : Char} {ts : List GlobTok} {ds : List Char} :
      c ≠ '/' → GlobSem ts ds → GlobSem (.qmark :: ts) (c :: ds)
  | star {ts : List GlobTok} {u ds : List Char} :
      (∀ c ∈ u, c ≠ '/') → GlobSem ts ds → GlobSem (.star :: ts) (u ++ ds)
  | globstar {ts : List GlobTok} {u ds : List Char} :
      (∀ c ∈ u, isLineTerminator c = false) → GlobSem ts ds →
      GlobSem (.globstar :: ts) (u ++ ds)

/-- The spec's original, unamended reading of `**` ("zero or more
arbitrary characters"), kept to state the counterexample to the frozen
claim: it differs from `GlobSem` only in the `globstar` rule, which here
places no restriction on the consumed characters. -/
inductive GlobSemSpec : List GlobTok → List Char → Prop where
  | nil : GlobSemSpec [] []
  | lit {c : Char} {ts : List GlobTok} {ds : List Char} :
      GlobSemSpec ts ds → GlobSemSpec (.lit c :: ts) (c :: ds)
  | qmark {c : Char} {ts : List GlobTok} {ds : List Char} :
      c ≠ '/' → GlobSemSpec ts ds → GlobSemSpec (.qmark :: ts) (c :: ds)
  | star {ts : List GlobTok} {u ds : List Char} :
      (∀ c ∈ u, c ≠ '/') → GlobSemSpec ts ds →
      GlobSemSpec (.star :: ts) (u ++ ds)
  | globstar {ts : List GlobTok} {u ds : List Char} :
      GlobSemSpec ts ds → GlobSemSpec (.globstar :: ts) (u ++ ds)

/-- The `findMatchingRule(rules, action, scope)` — first rule whose action is
equal and whose scope pattern matches; `null` if none. -/
def findMatchingRule : List PolicyRule → String → String → Option PolicyRule
  | [], _, _ => none
  | r :: rs, action, scope =>
    if r.action == action && matchesScope r.scope scope then some r
    else findMatchingRule rs action scope

/-- The `evaluate(profile, action, scope)`.  The `now()` timestamp is passed in
as `ts`. -/
def evaluate (profile : PolicyProfile) (action scope : String) (ts : String) :
    PolicyEvaluation :=
  match findMatchingRule profile.rules action scope with
  | none =>
    { rule := none
      decision := .DENY
      reason := "No rule matches action=\"" ++ action ++ "\" scope=\"" ++ scope
        ++ "\"; default deny"
      timestamp := ts }
  | some rule =>
    { rule := some rule
      decision := rule.decision
      reason := rule.reason.getD
        ("Matched rule: " ++ rule.action ++ " @ " ++ rule.scope)
      timestamp := ts }

/-- The `BudgetUsage` observed values. -/
structure BudgetUsage where
  elapsed_ms : Int
  tokens_used : Int
  tool_calls : Int
  artifacts_mb : Int
deriving DecidableEq, Repr

/-- The `BudgetCheck` result. -/
structure BudgetCheck where
  within_budget : Bool
  violations : List String
deriving DecidableEq, Repr

/-- The `checkBudget(budgets, usage)`: the four sequential conditional pushes
of the source become a concatenation of four conditional singletons. -/
def checkBudget (budgets : RunBudgets) (usage : BudgetUsage) : BudgetCheck :=
  let violations : List String :=
    (if usage.elapsed_ms > budgets.max_time_ms then
      ["Time budget exceeded: " ++ toString usage.elapsed_ms ++ "ms > "
        ++ toString budgets.max_time_ms ++ "ms"] else [])
    ++ (if usage.tokens_used > budgets.max_tokens then
      ["Token budget exceeded: " ++ toString usage.tokens_used ++ " > "
        ++ toString budgets.max_tokens] else [])
    ++ (match budgets.max_tool_calls with
        | some m => if usage.tool_calls > m then
            ["Tool call budget exceeded: " ++ toString usage.tool_calls
              ++ " > " ++ toString m] else []
        | none => [])
    ++ (match budgets.max_artifacts_mb with
        | some m => if usage.artifacts_mb > m then
            ["Artifact budget exceeded: " ++ toString usage.artifacts_mb
              ++ "MB > " ++ toString m ++ "MB"] else []
        | none => [])
  { within_budget := violations.length == 0, violations }

/-- Entry of `config.denied` in `buildProfile`'s input. -/
structure DenyEntry where
  action : String
  scope : String
  reason : Option String := none
deriving DecidableEq, Repr

/-- Entry of `config.approval_required` in `buildProfile`'s input. -/
structure ApprovalEntry where
  action : String
  scope : String
  reason : Option String := none
deriving DecidableEq, Repr

/-- Entry of `config.allowed` in `buildProfile`'s input. -/
structure AllowEntry where
  action : String
  scope : String
  condition : Option String := none
deriving DecidableEq, Repr

/-- The `Partial<RunBudgets>` of `buildProfile`'s input. -/
structure BudgetsEntry where
  max_time_ms : Option Int := none
  max_tokens : Option Int := none
  max_tool_calls : Option Int := none
  max_artifacts_mb : Option Int := none
deriving DecidableEq, Repr

/-- The `buildProfile`'s config argument; optional TS fields become `Option`. -/
structure ProfileConfig where
  name : String
  approval_required : Option (List ApprovalEntry) := none
  allowed : Option (List AllowEntry) := none
  denied : Option (List DenyEntry) := none
  budgets : Option BudgetsEntry := none
deriving DecidableEq, Repr

/-- Rule built from a `denied` entry (decision DENY). -/
def denyRule (d : DenyEntry) : PolicyRule :=
  { action := d.action, scope := d.scope, decision := .DENY, reason := d.reason }

/-- Rule built from an `approval_required` entry (decision REQUIRE_APPROVAL). -/
def approvalRule (a : ApprovalEntry) : PolicyRule :=
  { action := a.action, scope := a.scope, decision := .REQUIRE_APPROVAL
    reason := a.reason }

/-- Rule built from an `allowed` entry (decision ALLOW). -/
def allowRule (a : AllowEntry) : PolicyRule :=
  { action := a.action, scope := a.scope, decision := .ALLOW
    condition := a.condition }

/-- The `buildProfile(config)`: denied rules first, then approval-required,
then allowed; budgets defaulted. -/
def buildProfile (config : ProfileConfig) : PolicyProfile :=
  { name := config.name
    rules := (config.denied.getD []).map denyRule
      ++ (config.approval_required.getD []).map approvalRule
      ++ (config.allowed.getD []).map allowRule
    budgets :=
      { max_time_ms := (config.budgets.bind (·.max_time_ms)).getD 3600000
        max_tokens := (config.budgets.bind (·.max_tokens)).getD 100000
        max_tool_calls := config.budgets.bind (·.max_tool_calls)
        max_artifacts_mb := config.budgets.bind (·.max_artifacts_mb) } }

-- ──────────────────────────────────────────────────────────────────────
-- Run lifecycle (packages/kernel-run/src/index.ts, protocol events)
-- ──────────────────────────────────────────────────────────────────────

/-- The `RunStatus` union. -/
inductive RunStatus where
  | pending
  | running
  | completed
  | failed
  | cancelled
deriving DecidableEq, Repr

/-- The string each `RunStatus` literal denotes (used in error messages). -/
def runStatusStr : RunStatus → String
  | .pending => "pending"
  | .running => "running"
  | .completed => "completed"
  | .failed => "failed"
  | .cancelled => "cancelled"

/-- The `EventType` union. -/
inductive EventType where
  | run_started
  | run_completed
  | run_failed
  | tool_called
  | tool_result
  | artifact_created
  | policy_decision
  | policy_approval
  | metric_recorded
deriving DecidableEq, Repr

/-- The `RunEnvelope` (protocol).  -/
structure RunEnvelope where
  run_id : String
  parent_run_id : Option String
  agent_id : String
  base_ref : String
  repo_path : String
  objective : String
  policy_profile : String
  budgets : RunBudgets
  timestamp : String
deriving DecidableEq, Repr

/-- The `StructuredError` (protocol).  The optional `details` field — an
untyped JSON record never read by kernel-run — is omitted. -/
structure StructuredError where
  code : String
  message : String
  recoverable : Bool
deriving DecidableEq, Repr

/-- The `BaseEvent` (protocol): exactly the five fields `createEvent` sets.
`recordEvent` casts this to `AgentEvent`, so events emitted by the
RunManager carry these fields and nothing else (in particular no
`envelope` payload). -/
structure BaseEvent where
  run_id : String
  step_id : Nat
  event : EventType
  timestamp : String
  agent_id : String
deriving DecidableEq, Repr

/-- The `createEvent(run_id, agent_id, step_id, event)`; the `now()` timestamp
is passed in as `ts`. -/
def createEvent (run_id agent_id : String) (step_id : Nat) (event : EventType)
    (ts : String) : BaseEvent :=
  { run_id, agent_id, step_id, event, timestamp := ts }

/-- The `RunSummary` (protocol).  The source narrows `status` to the three
terminal literals by a cast; the embedding keeps `RunStatus`. -/
structure RunSummary where
  run_id : String
  status : RunStatus
  duration_ms : Int
  tool_calls : Nat
  artifacts_created : Nat
  errors : Nat
deriving DecidableEq, Repr

/-- The `RunState` (kernel-run). -/
structure RunState where
  envelope : RunEnvelope
  status : RunStatus
  step : Nat
  events : List BaseEvent
  started_at : Option String
  finished_at : Option String
  error : Option StructuredError
  tool_calls : Nat
  artifacts_created : Nat
  errors : Nat
deriving DecidableEq, Repr

/-- The `VALID_TRANSITIONS` table. -/
def VALID_TRANSITIONS : RunStatus → List RunStatus
  | .pending => [.running, .cancelled]
  | .running => [.completed, .failed, .cancelled]
  | .completed => []
  | .failed => []
  | .cancelled => []

/-- The `canTransition(from, to)`. -/
def canTransition (src dst : RunStatus) : Bool :=
  (VALID_TRANSITIONS src).contains dst

/-- The `Invalid transition: ... for run ...` message thrown by
`RunManager.transition`. -/
def invalidTransitionMsg (r : RunState) (dst : RunStatus) : String :=
  "Invalid transition: " ++ runStatusStr r.status ++ " → " ++ runStatusStr dst
    ++ " for run " ++ r.envelope.run_id

/-- The `RunManager.transition` (private): mutate `status` or throw.  The
thrown path returns `Except.error`, leaving the caller's state untouched. -/
def transitionRun (r : RunState) (dst : RunStatus) : Except String RunState :=
  if canTransition r.status dst then .ok { r with status := dst }
  else .error (invalidTransitionMsg r dst)

/-- The `RunManager.recordEvent` (private): create the event from the current
step counter, push it, advance the step. -/
def recordEvent (r : RunState) (eventType : EventType) (ts : String) :
    BaseEvent × RunState :=
  let event := createEvent r.envelope.run_id r.envelope.agent_id r.step
    eventType ts
  (event, { r with events := r.events ++ [event], step := r.step + 1 })

/-- State initialised by `RunManager.create`. -/
def createState (envelope : RunEnvelope) : RunState :=
  { envelope
    status := .pending
    step := 0
    events := []
    started_at := none
    finished_at := none
    error := none
    tool_calls := 0
    artifacts_created := 0
    errors := 0 }

/-- Per-run core of `RunManager.start`: transition to running, stamp
`started_at`, record `run.started`. -/
def startState (r : RunState) (ts : String) :
    Except String (BaseEvent × RunState) :=
  match transitionRun r .running with
  | .error e => .error e
  | .ok r1 => .ok (recordEvent { r1 with started_at := some ts } .run_started ts)

/-- The `RunManager.append`: only valid while running; records the event and
bumps the counter matching the event type. -/
def appendRun (r : RunState) (eventType : EventType) (ts : String) :
    Except String (BaseEvent × RunState) :=
  if r.status ≠ .running then
    .error ("Cannot append events to run in \"" ++ runStatusStr r.status
      ++ "\" state")
  else
    let (event, r1) := recordEvent r eventType ts
    .ok (event,
      { r1 with
        tool_calls :=
          if eventType = .tool_called then r1.tool_calls + 1 else r1.tool_calls
        artifacts_created :=
          if eventType = .artifact_created then r1.artifacts_created + 1
          else r1.artifacts_created
        errors :=
          if eventType = .run_failed then r1.errors + 1 else r1.errors })

/-- The `RunManager.buildSummary` (private).  `new Date(x).getTime()` is the
supplied `dateMs`, `Date.now()` is `nowMs`. -/
def buildSummary (dateMs : String → Int) (nowMs : Int) (r : RunState) :
    RunSummary :=
  let startTime := match r.started_at with
    | some s => dateMs s
    | none => nowMs
  let endTime := match r.finished_at with
    | some f => dateMs f
    | none => nowMs
  { run_id := r.envelope.run_id
    status := r.status
    duration_ms := endTime - startTime
    tool_calls := r.tool_calls
    artifacts_created := r.artifacts_created
    errors := r.errors }

/-- Per-run core of `RunManager.complete`: transition, stamp
`finished_at`, record `run.completed`, return the summary. -/
def completeRun (dateMs : String → Int) (nowMs : Int) (r : RunState)
    (ts : String) : Except String (RunSummary × RunState) :=
  match transitionRun r .completed with
  | .error e => .error e
  | .ok r1 =>
    let r2 := (recordEvent { r1 with finished_at := some ts } .run_completed ts).2
    .ok (buildSummary dateMs nowMs r2, r2)

/-- Per-run core of `RunManager.fail`: transition, stamp `finished_at`,
record the error, bump the error counter, record `run.failed`, return the
summary. -/
def failRun (dateMs : String → Int) (nowMs : Int) (r : RunState) (ts : String)
    (err : StructuredError) : Except String (RunSummary × RunState) :=
  match transitionRun r .failed with
  | .error e => .error e
  | .ok r1 =>
    let r2 := (recordEvent
      { r1 with finished_at := some ts, error := some err
                errors := r1.errors + 1 } .run_failed ts).2
    .ok (buildSummary dateMs nowMs r2, r2)

/-- Per-run core of `RunManager.cancel`: transition, stamp `finished_at`,
record `run.completed` (cancellation is logged as a completion event),
return the summary. -/
def cancelRun (dateMs : String → Int) (nowMs : Int) (r : RunState)
    (ts : String) : Except String (RunSummary × RunState) :=
  match transitionRun r .cancelled with
  | .error e => .error e
  | .ok r1 =>
    let r2 := (recordEvent { r1 with finished_at := some ts } .run_completed ts).2
    .ok (buildSummary dateMs nowMs r2, r2)

/-- Insertion-ordered string-keyed map, the embedding of a JS `Map`:
`set` replaces in place when the key exists, otherwise appends. -/
def mapSet {α : Type} : List (String × α) → String → α → List (String × α)
  | [], k, v => [(k, v)]
  | (k', v') :: rest, k, v =>
    if k' = k then (k, v) :: rest else (k', v') :: mapSet rest k v

/-- JS `Map.get` (as `Option`). -/
def mapGet {α : Type} (l : List (String × α)) (k : String) : Option α :=
  (l.find? (·.1 == k)).map (·.2)

/-- JS `Map.has`. -/
def mapHas {α : Type} (l : List (String × α)) (k : String) : Bool :=
  (mapGet l k).isSome

/-- The `RunManager`'s `runs` map. -/
structure RunManager where
  runs : List (String × RunState)
deriving Repr

/-- The `RunManager.get` / the lookup half of `require`. -/
def mgrGet (m : RunManager) (runId : String) : Option RunState :=
  mapGet m.runs runId

/-- The `Run ... not found` message thrown by `RunManager.require`. -/
def notFoundMsg (runId : String) : String := "Run " ++ runId ++ " not found"

/-- The `RunManager.create`: reject duplicate ids, else insert a fresh
pending state. -/
def createRun (m : RunManager) (envelope : RunEnvelope) :
    Except String (RunState × RunManager) :=
  if mapHas m.runs envelope.run_id then
    .error ("Run " ++ envelope.run_id ++ " already exists")
  else
    let state := createState envelope
    .ok (state, ⟨mapSet m.runs envelope.run_id state⟩)

/-- The `RunManager.start`: `require` then the per-run start core; the map is
updated only when no exception occurred. -/
def startRun (m : RunManager) (runId ts : String) :
    Except String (BaseEvent × RunManager) :=
  match mgrGet m runId with
  | none => .error (notFoundMsg runId)
  | some run =>
    match startState run ts with
    | .error e => .error e
    | .ok p => .ok (p.1, ⟨mapSet m.runs runId p.2⟩)

/-- Operations that drive a run between creation and its terminal
transition (`start`, and `append` with an event type); used to state
claims about every reachable run. -/
inductive RunOp where
  | opStart (ts : String)
  | opAppend (eventType : EventType) (ts : String)

/-- Apply one driving operation to a run's state. -/
def applyRunOp (r : RunState) : RunOp → Except String RunState
  | .opStart ts =>
    match startState r ts with
    | .error e => .error e
    | .ok p => .ok p.2
  | .opAppend eventType ts =>
    match appendRun r eventType ts with
    | .error e => .error e
    | .ok p => .ok p.2

/-- Apply a sequence of driving operations. -/
def applyRunOps (r : RunState) : List RunOp → Except String RunState
  | [] => .ok r
  | op :: ops =>
    match applyRunOp r op with
    | .error e => .error e
    | .ok r1 => applyRunOps r1 ops

/-- Number of events of a given type in a run's log. -/
def countEvents (r : RunState) (eventType : EventType) : Nat :=
  (r.events.filter (fun e => e.event == eventType)).length

/-- The three derived counters agree with the event log (the invariant
`create`/`start`/`append` maintain). -/
def CountersMatch (r : RunState) : Prop :=
  r.tool_calls = countEvents r .tool_called
    ∧ r.artifacts_created = countEvents r .artifact_created
    ∧ r.errors = countEvents r .run_failed

-- ──────────────────────────────────────────────────────────────────────
-- SHA-256 (the `crypto.subtle.digest("SHA-256", ...)` primitive used by
-- kernel-artifact, FIPS 180-4) over byte lists; 32-bit words are `Nat`
-- reduced modulo `2 ^ 32`.
-- ──────────────────────────────────────────────────────────────────────

/-- The `2 ^ 32`, the word modulus. -/
def M32 : Nat := 4294967296

/-- Right-rotation of a 32-bit word. -/
def rotr32 (x n : Nat) : Nat := ((x >>> n) ||| (x <<< (32 - n))) % M32

/-- Big sigma-0. -/
def bsig0 (x : Nat) : Nat := rotr32 x 2 ^^^ rotr32 x 13 ^^^ rotr32 x 22

/-- Big sigma-1. -/
def bsig1 (x : Nat) : Nat := rotr32 x 6 ^^^ rotr32 x 11 ^^^ rotr32 x 25

/-- Small sigma-0. -/
def ssig0 (x : Nat) : Nat := rotr32 x 7 ^^^ rotr32 x 18 ^^^ (x >>> 3)

/-- Small sigma-1. -/
def ssig1 (x : Nat) : Nat := rotr32 x 17 ^^^ rotr32 x 19 ^^^ (x >>> 10)

/-- Choose function (bitwise not is xor with the all-ones word). -/
def chF (x y z : Nat) : Nat := (x &&& y) ^^^ ((x ^^^ 4294967295) &&& z)

/-- Majority function. -/
def majF (x y z : Nat) : Nat := (x &&& y) ^^^ (x &&& z) ^^^ (y &&& z)

/-- Round constants. -/
def K256 : List Nat :=
  [1116352408, 1899447441, 3049323471, 3921009573, 961987163, 1508970993, 2453635748, 2870763221,
   3624381080, 310598401, 607225278, 1426881987, 1925078388, 2162078206, 2614888103, 3248222580,
   3835390401, 4022224774, 264347078, 604807628, 770255983, 1249150122, 1555081692, 1996064986,
   2554220882, 2821834349, 2952996808, 3210313671, 3336571891, 3584528711, 113926993, 338241895,
   666307205, 773529912, 1294757372, 1396182291, 1695183700, 1986661051, 2177026350, 2456956037,
   2730485921, 2820302411, 3259730800, 3345764771, 3516065817, 3600352804, 4094571909, 275423344,
   430227734, 506948616, 659060556, 883997877, 958139571, 1322822218, 1537002063, 1747873779,
   1955562222, 2024104815, 2227730452, 2361852424, 2428436474, 2756734187, 3204031479, 3329325298]

/-- The eight 32-bit working variables of the compression function. -/
structure Hash8 where
  a : Nat
  b : Nat
  c : Nat
  d : Nat
  e : Nat
  f : Nat
  g : Nat
  h : Nat
deriving DecidableEq, Repr

/-- Initial hash value. -/
def H0 : Hash8 :=
  ⟨1779033703, 3144134277, 1013904242, 2773480762,
   1359893119, 2600822924, 528734635, 1541459225⟩

/-- Eight big-endian bytes of the 64-bit message bit length. -/
def lenBytes (bitLen : Nat) : List Nat :=
  (List.range 8).map fun i => (bitLen >>> ((7 - i) * 8)) % 256

/-- Merkle–Damgård padding: append `0x80`, zero bytes to 56 mod 64, then
the 64-bit big-endian bit length. -/
def padMessage (msg : List Nat) : List Nat :=
  msg ++ [128] ++ List.replicate ((119 - msg.length % 64) % 64) 0
    ++ lenBytes (msg.length * 8)

/-- Pack bytes into big-endian 32-bit words. -/
def toWords : List Nat → List Nat
  | a :: b :: c :: d :: rest =>
    (((a % 256) <<< 24) + ((b % 256) <<< 16) + ((c % 256) <<< 8) + (d % 256))
      :: toWords rest
  | _ => []

/-- Extend the 16 block words to the 64-entry message schedule. -/
def buildSchedule (w : List Nat) : List Nat :=
  (List.range 48).foldl
    (fun acc _ =>
      let n := acc.length
      acc ++ [(ssig1 (acc.getD (n - 2) 0) + acc.getD (n - 7) 0
        + ssig0 (acc.getD (n - 15) 0) + acc.getD (n - 16) 0) % M32])
    w

/-- One compression round. -/
def compressStep (st : Hash8) (k w : Nat) : Hash8 :=
  let t1 := (st.h + bsig1 st.e + chF st.e st.f st.g + k + w) % M32
  let t2 := (bsig0 st.a + majF st.a st.b st.c) % M32
  ⟨(t1 + t2) % M32, st.a, st.b, st.c, (st.d + t1) % M32, st.e, st.f, st.g⟩

/-- Compress one 64-byte block into the running hash. -/
def compressBlock (st : Hash8) (block : List Nat) : Hash8 :=
  let w := buildSchedule (toWords block)
  let fin := (K256.zip w).foldl (fun s kw => compressStep s kw.1 kw.2) st
  ⟨(st.a + fin.a) % M32, (st.b + fin.b) % M32, (st.c + fin.c) % M32,
   (st.d + fin.d) % M32, (st.e + fin.e) % M32, (st.f + fin.f) % M32,
   (st.g + fin.g) % M32, (st.h + fin.h) % M32⟩

/-- Fuelled block splitter (each step consumes at least one byte, so
`l.length` fuel always suffices). -/
def chunks64Go : Nat → List Nat → List (List Nat)
  | _, [] => []
  | 0, _ :: _ => []
  | f + 1, a :: rest =>
    ((a :: rest).take 64) :: chunks64Go f ((a :: rest).drop 64)

/-- Split a byte list into 64-byte blocks. -/
def chunks64 (l : List Nat) : List (List Nat) := chunks64Go l.length l

/-- Lowercase hex digit for a nibble. -/
def hexDigit (n : Nat) : Char :=
  if n < 10 then Char.ofNat (48 + n) else Char.ofNat (87 + n)

/-- Eight lowercase hex digits of a 32-bit word, most significant first
(the digest rendering `b.toString(16).padStart(2, "0")` per byte). -/
def wordHex (w : Nat) : String :=
  String.mk ((List.range 8).map fun i => hexDigit ((w >>> ((7 - i) * 4)) % 16))

/-- The `sha256(data)` as a 64-character lowercase hex string. -/
def sha256Hex (msg : List Nat) : String :=
  let fin := (chunks64 (padMessage msg)).foldl compressBlock H0
  wordHex fin.a ++ wordHex fin.b ++ wordHex fin.c ++ wordHex fin.d
    ++ wordHex fin.e ++ wordHex fin.f ++ wordHex fin.g ++ wordHex fin.h

-- ──────────────────────────────────────────────────────────────────────
-- Artifact store (kernel-artifact, unnamed/part_000)
-- ──────────────────────────────────────────────────────────────────────

/-- The `ArtifactMetadata` (protocol). -/
structure ArtifactMetadata where
  handle : String
  size : Nat
  mime : String
  created_at : String
  run_id : String
deriving DecidableEq, Repr

/-- The `artifactHandle(sha256hex)` (protocol). -/
def artifactHandle (sha256hex : String) : String :=
  "artifact://sha256/" ++ sha256hex

/-- The `ArtifactStore` with the default `MemoryBackend`: both the backend
blob map (hash → bytes) and the metadata index (hash → metadata) are JS
`Map`s, embedded as insertion-ordered association lists. -/
structure ArtifactStore where
  backend : List (String × List Nat)
  metadata : List (String × ArtifactMetadata)
deriving DecidableEq, Repr

/-- The store a fresh `new ArtifactStore()` holds. -/
def emptyStore : ArtifactStore := ⟨[], []⟩

/-- The `ArtifactStore.store(data, mime, runId)`: hash, write the blob only
when the backend lacks the hash, unconditionally upsert metadata (last
writer wins for `run_id`).  `new Date().toISOString()` is passed as `ts`. -/
def storeArtifact (st : ArtifactStore) (data : List Nat)
    (mime runId ts : String) : String × ArtifactStore :=
  let hash := sha256Hex data
  let handle := artifactHandle hash
  let backend := if mapHas st.backend hash then st.backend
    else mapSet st.backend hash data
  let metadata := mapSet st.metadata hash
    { handle, size := data.length, mime, created_at := ts, run_id := runId }
  (handle, { backend, metadata })

/-- The `ArtifactStore.listMetadata()`. -/
def listMetadata (st : ArtifactStore) : List ArtifactMetadata :=
  st.metadata.map (·.2)

/-- The `ArtifactStore.listByRun(runId)`. -/
def listByRun (st : ArtifactStore) (runId : String) : List ArtifactMetadata :=
  (listMetadata st).filter (fun m => m.run_id == runId)

/-- A store whose two maps have no duplicate keys; every store reachable
through the API satisfies this (JS `Map`s cannot hold duplicate keys). -/
def StoreWF (st : ArtifactStore) : Prop :=
  (st.backend.map (·.1)).Nodup ∧ (st.metadata.map (·.1)).Nodup

/-- Hex-digit check for the handle-shape property. -/
def isHexChar (c : Char) : Bool :=
  ("0123456789abcdef".data.contains c)

-- ──────────────────────────────────────────────────────────────────────
-- State aggregator (kernel-state, unnamed/part_016)
-- ──────────────────────────────────────────────────────────────────────

/-- The `ControlState["controller_mode"]` union. -/
inductive ControllerMode where
  | autonomous
  | supervised
  | manual
deriving DecidableEq, Repr

/-- The `ControlState` (protocol). -/
structure ControlState where
  version : Nat
  controller_mode : ControllerMode
  last_audit_at : Option String
  last_entropy_review_at : Option String
  active_runs : Nat
  completed_runs : Nat
  artifact_count : Nat
  policy_violations : Nat
deriving DecidableEq, Repr

/-- The `StateInput` for `buildControlState`.  The two timestamp fields are
optional and themselves nullable (`string | null`), hence the doubled
`Option`. -/
structure StateInput where
  runs : List RunState
  artifactCount : Nat
  policyViolations : Nat
  controllerMode : Option ControllerMode := none
  lastAuditAt : Option (Option String) := none
  lastEntropyReviewAt : Option (Option String) := none

/-- The `buildControlState(input)`: partition runs into active and completed
counts, fill the remaining snapshot fields with defaults. -/
def buildControlState (input : StateInput) : ControlState :=
  let activeRuns := (input.runs.filter fun r =>
    r.status == .pending || r.status == .running).length
  let completedRuns := (input.runs.filter fun r =>
    r.status == .completed || r.status == .failed
      || r.status == .cancelled).length
  { version := 1
    controller_mode := input.controllerMode.getD .autonomous
    last_audit_at := input.lastAuditAt.getD none
    last_entropy_review_at := input.lastEntropyReviewAt.getD none
    active_runs := activeRuns
    completed_runs := completedRuns
    artifact_count := input.artifactCount
    policy_violations := input.policyViolations }

/-- The transition table as the spec states it, for comparison with
`canTransition`: pending→running, pending→cancelled, running→completed,
running→failed, running→cancelled. -/
def allowedTransitionPairs : List (RunStatus × RunStatus) :=
  [(.pending, .running), (.pending, .cancelled),
   (.running, .completed), (.running, .failed), (.running, .cancelled)]

-- ──────────────────────────────────────────────────────────────────────
-- Concrete inputs used by witness and counterexample theorems
-- ──────────────────────────────────────────────────────────────────────

/-- A profile config with a DENY rule and an ALLOW rule both matching
`("file.write", ".env")`. -/
def c1Config : ProfileConfig :=
  { name := "test"
    denied := some [{ action := "file.write", scope := ".env*" }]
    allowed := some [{ action := "file.write", scope := "*" }] }

/-- A profile whose single rule never matches the query used in the C2
witness. -/
def c2Profile : PolicyProfile :=
  { name := "p"
    rules := [{ action := "file.read", scope := "*", decision := .ALLOW }]
    budgets := { max_time_ms := 1000, max_tokens := 1000 } }

/-- A sample envelope for run-lifecycle witnesses. -/
def sampleEnv : RunEnvelope :=
  { run_id := "run-001"
    parent_run_id := none
    agent_id := "agent-1"
    base_ref := "main"
    repo_path := "repo://test"
    objective := "demo"
    policy_profile := "ci_safe"
    budgets := { max_time_ms := 60000, max_tokens := 10000 }
    timestamp := "t0" }

/-- A sample structured error for `fail`. -/
def sampleErr : StructuredError :=
  { code := "E_FAIL", message := "boom", recoverable := false }

/-- A run sitting in `running` state (as after `start`). -/
def sampleRunningRun : RunState :=
  { createState sampleEnv with status := .running, started_at := some "t1" }

/-- The driving operations used by the C7 witness: start, one tool call,
one artifact, one failed-step event. -/
def c7Ops : List RunOp :=
  [.opStart "t1", .opAppend .tool_called "t2", .opAppend .artifact_created "t3",
   .opAppend .run_failed "t4"]

/-- The run state that `c7Ops` drives `sampleEnv`'s fresh run to. -/
def c7Run : RunState :=
  ((applyRunOps (createState sampleEnv) c7Ops).toOption).getD (createState sampleEnv)

/-- The run state after `start` alone (for the C7 counterexample). -/
def c7StartedRun : RunState :=
  (((startState (createState sampleEnv) "t1").map (·.2)).toOption).getD
    (createState sampleEnv)

/-- A manager holding only the fresh pending `sampleEnv` run. -/
def sampleMgr : RunManager := ⟨[("run-001", createState sampleEnv)]⟩

-- ──────────────────────────────────────────────────────────────────────
-- Theorems
-- ──────────────────────────────────────────────────────────────────────

/-- The `findMatchingRule` scans an appended list left to right. -/
theorem findMatchingRule_append (xs ys : List PolicyRule) (action scope : String) :
    findMatchingRule (xs ++ ys) action scope =
      match findMatchingRule xs action scope with
      | some r => some r
      | none => findMatchingRule ys action scope := by
  induction xs with
  | nil => rfl
  | cons r rs ih =>
    simp only [List.cons_append, findMatchingRule]
    split
    · rfl
    · exact ih

/-- A rule list containing a matching rule resolves to some matching
member of the list. -/
theorem findMatchingRule_mem_of_match {rules : List PolicyRule}
    {action scope : String}
    (h : ∃ r ∈ rules, r.action = action ∧ matchesScope r.scope scope = true) :
    ∃ r, findMatchingRule rules action scope = some r ∧ r ∈ rules := by
  induction rules with
  | nil => rcases h with ⟨r, hr, _⟩; cases hr
  | cons r rs ih =>
    by_cases hc : (r.action == action && matchesScope r.scope scope) = true
    · exact ⟨r, by simp [findMatchingRule, hc], List.mem_cons_self r rs⟩
    · rcases h with ⟨r', hr', hmatch⟩
      rcases List.mem_cons.mp hr' with rfl | hmem
      · exact absurd
          (Bool.and_eq_true_iff.mpr ⟨beq_iff_eq.mpr hmatch.1, hmatch.2⟩) hc
      · obtain ⟨r0, hfind, hmem0⟩ := ih ⟨r', hmem, hmatch⟩
        refine ⟨r0, ?_, List.mem_cons_of_mem _ hmem0⟩
        simp only [findMatchingRule]
        split
        · exact absurd (by assumption) hc
        · exact hfind

/-- C1: `buildProfile` places every denied rule before every
approval-required rule before every allowed rule (each group in input
order), and consequently — since `findMatchingRule` returns the first
matching rule in profile order — whenever a built profile contains both a
DENY rule and an ALLOW rule matching the same (action, scope) pair,
`evaluate` on that pair returns decision DENY. -/
theorem buildProfile_deny_precedence (config : ProfileConfig)
    (action scope ts : String)
    (hdeny : ∃ r ∈ (buildProfile config).rules,
      r.decision = .DENY ∧ r.action = action ∧ matchesScope r.scope scope = true)
    (_hallow : ∃ r ∈ (buildProfile config).rules,
      r.decision = .ALLOW ∧ r.action = action ∧ matchesScope r.scope scope = true) :
    ((buildProfile config).rules
      = (config.denied.getD []).map denyRule
        ++ (config.approval_required.getD []).map approvalRule
        ++ (config.allowed.getD []).map allowRule)
    ∧ (evaluate (buildProfile config) action scope ts).decision = .DENY := by
  refine ⟨rfl, ?_⟩
  obtain ⟨r, hrmem, hrd, hract, hrsc⟩ := hdeny
  -- the matching DENY rule lives in the denied block
  have hrD : r ∈ (config.denied.getD []).map denyRule := by
    have hsplit : r ∈ (config.denied.getD []).map denyRule
        ∨ r ∈ (config.approval_required.getD []).map approvalRule
        ∨ r ∈ (config.allowed.getD []).map allowRule := by
      have := hrmem
      simp only [buildProfile, List.append_assoc, List.mem_append] at this
      tauto
    rcases hsplit with hD | hA | hL
    · exact hD
    · obtain ⟨a, _, rfl⟩ := List.mem_map.mp hA
      simp [approvalRule] at hrd
    · obtain ⟨a, _, rfl⟩ := List.mem_map.mp hL
      simp [allowRule] at hrd
  obtain ⟨r0, hfind, hr0mem⟩ :=
    findMatchingRule_mem_of_match ⟨r, hrD, hract, hrsc⟩
  have hr0deny : r0.decision = .DENY := by
    obtain ⟨d, _, rfl⟩ := List.mem_map.mp hr0mem
    rfl
  have hrules : (buildProfile config).rules
      = (config.denied.getD []).map denyRule
        ++ ((config.approval_required.getD []).map approvalRule
          ++ (config.allowed.getD []).map allowRule) := by
    simp [buildProfile, List.append_assoc]
  have hfound : findMatchingRule (buildProfile config).rules action scope
      = some r0 := by
    rw [hrules, findMatchingRule_append, hfind]
  simp [evaluate, hfound, hr0deny]

/-- Witness for C1 at a concrete deny/allow config and query. -/
theorem buildProfile_deny_precedence_witness :
    (∃ r ∈ (buildProfile c1Config).rules,
      r.decision = .DENY ∧ r.action = "file.write"
        ∧ matchesScope r.scope ".env" = true)
    ∧ (∃ r ∈ (buildProfile c1Config).rules,
      r.decision = .ALLOW ∧ r.action = "file.write"
        ∧ matchesScope r.scope ".env" = true)
    ∧ (((buildProfile c1Config).rules
        = (c1Config.denied.getD []).map denyRule
          ++ (c1Config.approval_required.getD []).map approvalRule
          ++ (c1Config.allowed.getD []).map allowRule)
      ∧ (evaluate (buildProfile c1Config) "file.write" ".env" "t0").decision
          = .DENY) :=
  ⟨by decide, by decide,
    buildProfile_deny_precedence c1Config "file.write" ".env" "t0"
      (by decide) (by decide)⟩

/-- A rule list with no matching rule resolves to `none`. -/
theorem findMatchingRule_eq_none {rules : List PolicyRule} {action scope : String}
    (h : ∀ r ∈ rules, ¬(r.action = action ∧ matchesScope r.scope scope = true)) :
    findMatchingRule rules action scope = none := by
  induction rules with
  | nil => rfl
  | cons r rs ih =>
    have hr := h r (List.mem_cons_self r rs)
    have hb : (r.action == action && matchesScope r.scope scope) = false := by
      rcases hcond : (r.action == action && matchesScope r.scope scope) with _ | _
      · rfl
      · exact absurd (by simpa [Bool.and_eq_true, beq_iff_eq] using hcond) hr
    simp only [findMatchingRule, hb, if_neg]
    exact ih fun x hx => h x (List.mem_cons_of_mem r hx)

/-- C2: when no rule in the profile has an equal action and a matching
scope pattern, `evaluate` returns decision DENY, a null matched rule, and
the reason `No rule matches action="<action>" scope="<scope>"; default
deny`; in particular the reason starts with "No rule matches" and contains
the literal queried action and scope strings. -/
theorem evaluate_default_deny (profile : PolicyProfile) (action scope ts : String)
    (h : ∀ r ∈ profile.rules, ¬(r.action = action ∧ matchesScope r.scope scope = true)) :
    evaluate profile action scope ts =
      { rule := none
        decision := .DENY
        reason := "No rule matches action=\"" ++ action ++ "\" scope=\"" ++ scope
          ++ "\"; default deny"
        timestamp := ts }
    ∧ (∃ u v, (evaluate profile action scope ts).reason = u ++ action ++ v)
    ∧ (∃ u v, (evaluate profile action scope ts).reason = u ++ scope ++ v)
    ∧ (∃ v, (evaluate profile action scope ts).reason = "No rule matches" ++ v) := by
  have hnone := findMatchingRule_eq_none h
  have heval : evaluate profile action scope ts =
      { rule := none
        decision := .DENY
        reason := "No rule matches action=\"" ++ action ++ "\" scope=\"" ++ scope
          ++ "\"; default deny"
        timestamp := ts } := by
    simp [evaluate, hnone]
  refine ⟨heval, ?_, ?_, ?_⟩
  · refine ⟨"No rule matches action=\"",
      "\" scope=\"" ++ scope ++ "\"; default deny", ?_⟩
    rw [heval]
    simp [String.append_assoc]
  · exact ⟨"No rule matches action=\"" ++ action ++ "\" scope=\"",
      "\"; default deny", by rw [heval]⟩
  · refine ⟨" action=\"" ++ action ++ "\" scope=\"" ++ scope
      ++ "\"; default deny", ?_⟩
    rw [heval]
    apply String.ext
    simp only [String.data_append]
    simp [List.append_assoc, List.cons_append, List.nil_append]

/-- Witness for C2 at a concrete profile and unmatched query. -/
theorem evaluate_default_deny_witness :
    (∀ r ∈ c2Profile.rules,
      ¬(r.action = "file.write" ∧ matchesScope r.scope "src/a.ts" = true))
    ∧ ((evaluate c2Profile "file.write" "src/a.ts" "t0" =
        { rule := none
          decision := .DENY
          reason := "No rule matches action=\"" ++ "file.write" ++ "\" scope=\""
            ++ "src/a.ts" ++ "\"; default deny"
          timestamp := "t0" })
      ∧ (∃ u v, (evaluate c2Profile "file.write" "src/a.ts" "t0").reason
          = u ++ "file.write" ++ v)
      ∧ (∃ u v, (evaluate c2Profile "file.write" "src/a.ts" "t0").reason
          = u ++ "src/a.ts" ++ v)
      ∧ (∃ v, (evaluate c2Profile "file.write" "src/a.ts" "t0").reason
          = "No rule matches" ++ v)) :=
  ⟨by decide,
    evaluate_default_deny c2Profile "file.write" "src/a.ts" "t0" (by decide)⟩

/-- C3: `checkBudget` reports one violation string per strictly-exceeded
dimension — the two mandatory dimensions always checked, the two optional
ones only when defined — so usage exceeding N constrained dimensions
yields exactly N violations, and `within_budget` holds iff the violation
list is empty. -/
theorem checkBudget_additivity (budgets : RunBudgets) (usage : BudgetUsage) :
    ((checkBudget budgets usage).violations.length =
      (if usage.elapsed_ms > budgets.max_time_ms then 1 else 0) +
      (if usage.tokens_used > budgets.max_tokens then 1 else 0) +
      (match budgets.max_tool_calls with
       | some m => if usage.tool_calls > m then 1 else 0
       | none => 0) +
      (match budgets.max_artifacts_mb with
       | some m => if usage.artifacts_mb > m then 1 else 0
       | none => 0))
    ∧ ((checkBudget budgets usage).within_budget = true ↔
        (checkBudget budgets usage).violations = []) := by
  constructor
  · rcases htc : budgets.max_tool_calls with _ | m3 <;>
      rcases ham : budgets.max_artifacts_mb with _ | m4 <;>
      simp only [checkBudget, htc, ham] <;>
      split_ifs <;> simp_arith
  · simp only [checkBudget]
    simp [List.length_eq_zero]

/-- Each run's status is counted in exactly one of the two
`buildControlState` buckets. -/
theorem filter_status_partition (runs : List RunState) :
    (runs.filter fun r => r.status == .pending || r.status == .running).length
      + (runs.filter fun r => r.status == .completed || r.status == .failed
          || r.status == .cancelled).length
      = runs.length := by
  induction runs with
  | nil => rfl
  | cons r rest ih =>
    rcases h : r.status <;> simp [List.filter_cons, h] <;> omega

/-- Inversion for a leading `star` token. -/
theorem globSem_star_inv {ts : List GlobTok} {ds : List Char}
    (h : GlobSem (.star :: ts) ds) :
    ∃ u rest, ds = u ++ rest ∧ (∀ c ∈ u, c ≠ '/') ∧ GlobSem ts rest := by
  cases h with
  | star hu hts => exact ⟨_, _, rfl, hu, hts⟩

/-- Inversion for a leading `globstar` token. -/
theorem globSem_globstar_inv {ts : List GlobTok} {ds : List Char}
    (h : GlobSem (.globstar :: ts) ds) :
    ∃ u rest, ds = u ++ rest ∧ (∀ c ∈ u, isLineTerminator c = false)
      ∧ GlobSem ts rest := by
  cases h with
  | globstar hu hts => exact ⟨_, _, rfl, hu, hts⟩

/-- A `star` match extends over one more non-`/` character. -/
theorem globSem_star_cons {ts : List GlobTok} {d : Char} {ds : List Char}
    (hd : d ≠ '/') (h : GlobSem (.star :: ts) ds) :
    GlobSem (.star :: ts) (d :: ds) := by
  obtain ⟨u, rest, rfl, hu, hts⟩ := globSem_star_inv h
  exact GlobSem.star (u := d :: u)
    (fun c hc => by rcases List.mem_cons.mp hc with rfl | hc; exact hd; exact hu c hc)
    hts

/-- A `globstar` match extends over one more non-line-terminator
character. -/
theorem globSem_globstar_cons {ts : List GlobTok} {d : Char} {ds : List Char}
    (hd : isLineTerminator d = false) (h : GlobSem (.globstar :: ts) ds) :
    GlobSem (.globstar :: ts) (d :: ds) := by
  obtain ⟨u, rest, rfl, hu, hts⟩ := globSem_globstar_inv h
  exact GlobSem.globstar (u := d :: u)
    (fun c hc => by rcases List.mem_cons.mp hc with rfl | hc; exact hd; exact hu c hc)
    hts

/-- With fuel above `ts.length + s.length`, the fuelled matcher decides
exactly the declarative glob semantics. -/
theorem globMatchF_iff_globSem :
    ∀ (fuel : Nat) (ts : List GlobTok) (s : List Char),
      ts.length + s.length < fuel →
      (globMatchF fuel ts s = true ↔ GlobSem ts s) := by
  intro fuel
  induction fuel with
  | zero => exact fun ts s h => absurd h (Nat.not_lt_zero _)
  | succ f ih =>
    intro ts s h
    match ts, s with
    | [], [] =>
      exact ⟨fun _ => .nil, fun _ => rfl⟩
    | [], d :: ds =>
      exact ⟨fun hf => by simp [globMatchF] at hf, fun hsem => by cases hsem⟩
    | .lit c :: ts, [] =>
      exact ⟨fun hf => by simp [globMatchF] at hf, fun hsem => by cases hsem⟩
    | .lit c :: ts, d :: ds =>
      have hrec := ih ts ds (by simp at h ⊢; omega)
      constructor
      · intro hf
        rcases Bool.and_eq_true_iff.mp hf with ⟨hc, hm⟩
        rcases beq_iff_eq.mp hc
        exact .lit (hrec.mp hm)
      · intro hsem
        cases hsem with
        | lit hts =>
          exact Bool.and_eq_true_iff.mpr ⟨beq_iff_eq.mpr rfl, hrec.mpr hts⟩
    | .qmark :: ts, [] =>
      exact ⟨fun hf => by simp [globMatchF] at hf, fun hsem => by cases hsem⟩
    | .qmark :: ts, d :: ds =>
      have hrec := ih ts ds (by simp at h ⊢; omega)
      constructor
      · intro hf
        rcases Bool.and_eq_true_iff.mp hf with ⟨hc, hm⟩
        exact .qmark (of_decide_eq_true hc) (hrec.mp hm)
      · intro hsem
        cases hsem with
        | qmark hd hts =>
          exact Bool.and_eq_true_iff.mpr ⟨decide_eq_true hd, hrec.mpr hts⟩
    | .star :: ts, [] =>
      have hrec := ih ts [] (by simp at h ⊢; omega)
      constructor
      · intro hf
        exact GlobSem.star (u := []) (by simp) (hrec.mp hf)
      · intro hsem
        obtain ⟨u, rest, heq, _, hts⟩ := globSem_star_inv hsem
        rcases List.append_eq_nil.mp heq.symm with ⟨rfl, rfl⟩
        exact hrec.mpr hts
    | .star :: ts, d :: ds =>
      have hrec1 := ih ts (d :: ds) (by simp at h ⊢; omega)
      have hrec2 := ih (.star :: ts) ds (by simp at h ⊢; omega)
      constructor
      · intro hf
        rcases Bool.or_eq_true_iff.mp hf with hl | hr
        · exact GlobSem.star (u := []) (by simp) (hrec1.mp hl)
        · rcases Bool.and_eq_true_iff.mp hr with ⟨hd, hm⟩
          exact globSem_star_cons (of_decide_eq_true hd) (hrec2.mp hm)
      · intro hsem
        obtain ⟨u, rest, heq, hu, hts⟩ := globSem_star_inv hsem
        apply Bool.or_eq_true_iff.mpr
        match u, heq with
        | [], heq =>
          have hrest : rest = d :: ds := by simpa using heq.symm
          exact Or.inl (hrec1.mpr (hrest ▸ hts))
        | d' :: u', heq =>
          have hd : d' = d := by
            have := congrArg (fun l => l.head?) heq
            simpa using this.symm
          rcases hd
          have hds : ds = u' ++ rest := by
            have := congrArg (fun l => l.tail) heq
            simpa using this
          refine Or.inr (Bool.and_eq_true_iff.mpr ⟨decide_eq_true (hu d (by simp)), ?_⟩)
          exact hrec2.mpr (hds ▸ GlobSem.star
            (fun c hc => hu c (List.mem_cons_of_mem _ hc)) hts)
    | .globstar :: ts, [] =>
      have hrec := ih ts [] (by simp at h ⊢; omega)
      constructor
      · intro hf
        exact GlobSem.globstar (u := []) (by simp) (hrec.mp hf)
      · intro hsem
        obtain ⟨u, rest, heq, _, hts⟩ := globSem_globstar_inv hsem
        rcases List.append_eq_nil.mp heq.symm with ⟨rfl, rfl⟩
        exact hrec.mpr hts
    | .globstar :: ts, d :: ds =>
      have hrec1 := ih ts (d :: ds) (by simp at h ⊢; omega)
      have hrec2 := ih (.globstar :: ts) ds (by simp at h ⊢; omega)
      constructor
      · intro hf
        rcases Bool.or_eq_true_iff.mp hf with hl | hr
        · exact GlobSem.globstar (u := []) (by simp) (hrec1.mp hl)
        · rcases Bool.and_eq_true_iff.mp hr with ⟨hd, hm⟩
          exact globSem_globstar_cons (by simpa using hd) (hrec2.mp hm)
      · intro hsem
        obtain ⟨u, rest, heq, hu, hts⟩ := globSem_globstar_inv hsem
        apply Bool.or_eq_true_iff.mpr
        match u, hu, heq with
        | [], hu, heq =>
          have hrest : rest = d :: ds := by simpa using heq.symm
          exact Or.inl (hrec1.mpr (hrest ▸ hts))
        | d' :: u', hu, heq =>
          have hd : d' = d := by
            have := congrArg (fun l => l.head?) heq
            simpa using this.symm
          rcases hd
          have hds : ds = u' ++ rest := by
            have := congrArg (fun l => l.tail) heq
            simpa using this
          refine Or.inr (Bool.and_eq_true_iff.mpr
            ⟨by simp [hu d (by simp)], ?_⟩)
          exact hrec2.mpr (hds ▸ GlobSem.globstar
            (fun c hc => hu c (List.mem_cons_of_mem _ hc)) hts)

/-- C4 (amended): `matchesScope` returns true exactly when the pattern is
`*`, or is character-equal to the scope, or the whole scope matches
(anchored, case-sensitively) the glob reading of the pattern in which `**`
matches zero or more characters including `/` but excluding the four JS
line terminators (LF, CR, U+2028, U+2029 — `**` compiles to `.*` in a
flagless `RegExp`, whose `.` does not match them), a single `*` matches
zero or more characters excluding `/`, `?` matches exactly one non-`/`
character, and every other character — regex metacharacters included,
since the source escapes them — stands for itself. -/
theorem matchesScope_glob_spec (pattern scope : String) :
    matchesScope pattern scope = true ↔
      (pattern = "*" ∨ pattern = scope
        ∨ GlobSem (globTokens pattern.data) scope.data) := by
  have hiff := globMatchF_iff_globSem
    ((globTokens pattern.data).length + scope.data.length + 1)
    (globTokens pattern.data) scope.data (Nat.lt_succ_self _)
  unfold matchesScope globMatch
  split_ifs with h1 h2
  · simp only [true_iff]
    exact Or.inl (beq_iff_eq.mp h1)
  · simp only [true_iff]
    exact Or.inr (Or.inl (beq_iff_eq.mp h2))
  · rw [hiff]
    constructor
    · exact fun hsem => Or.inr (Or.inr hsem)
    · rintro (hp | hp | hp)
      · exact absurd (beq_iff_eq.mpr hp) (by simpa using h1)
      · exact absurd (beq_iff_eq.mpr hp) (by simpa using h2)
      · exact hp

/-- Counterexample for C4 as frozen: under the claim's reading, `**`
matches the zero-or-more *arbitrary* characters of scope `"a\nb"` (the
pattern is neither `"*"` nor equal to the scope), so the claim predicts
`matchesScope "**" "a\nb" = true`; the code compiles `**` to `.*` in a
flagless `RegExp`, whose `.` does not match the newline, and returns
false. -/
theorem matchesScope_globstar_newline_cex :
    matchesScope "**" "a\nb" = false
    ∧ ("**" : String) ≠ "*"
    ∧ ("**" : String) ≠ "a\nb"
    ∧ GlobSemSpec (globTokens "**".data) "a\nb".data := by
  refine ⟨by decide, by decide, by decide, ?_⟩
  rw [show globTokens "**".data = [.globstar] from by decide,
    show "a\nb".data = ['a', '\n', 'b'] from by decide]
  show GlobSemSpec [.globstar] (['a', '\n', 'b'] ++ [])
  exact .globstar .nil

/-- C5: a transition succeeds exactly for the pairs of the spec's table —
every other attempted pair fails with an invalid-transition error naming
the run, the attempted source state and the target state (the `Except`
embedding returns no updated state on the error path, so the run's status
is unchanged) — and each allowed pair, once taken, cannot be taken again
from the resulting state. -/
theorem transition_table_closure (r : RunState) (dst : RunStatus) :
    (canTransition r.status dst = true ↔
      (r.status, dst) ∈ allowedTransitionPairs)
    ∧ ((r.status, dst) ∉ allowedTransitionPairs →
        transitionRun r dst = .error
          ("Invalid transition: " ++ runStatusStr r.status ++ " → "
            ++ runStatusStr dst ++ " for run " ++ r.envelope.run_id))
    ∧ ((r.status, dst) ∈ allowedTransitionPairs →
        ∃ r2, transitionRun r dst = .ok r2 ∧ r2 = { r with status := dst }
          ∧ transitionRun r2 dst = .error (invalidTransitionMsg r2 dst)) := by
  cases hst : r.status <;> cases dst <;>
    simp [canTransition, VALID_TRANSITIONS, allowedTransitionPairs,
      transitionRun, invalidTransitionMsg, runStatusStr, hst]

/-- Witness for C5: the fresh pending run takes pending→running once and
cannot take it again. -/
theorem transition_table_closure_witness :
    (((createState sampleEnv).status, RunStatus.running)
        ∈ allowedTransitionPairs)
    ∧ (∃ r2, transitionRun (createState sampleEnv) .running = .ok r2
        ∧ r2 = { createState sampleEnv with status := .running }
        ∧ transitionRun r2 .running = .error (invalidTransitionMsg r2 .running)) :=
  ⟨by decide,
    (transition_table_closure (createState sampleEnv) .running).2.2 (by decide)⟩

/-- C6: `append` on a run that is pending or terminal always fails with a
message naming the current status (the `Except` embedding leaves the run
unchanged on that path); `append` on a running run always succeeds,
appends exactly one event and increments the step counter by exactly 1. -/
theorem append_guard (r : RunState) (et : EventType) (ts : String) :
    ((r.status = .pending ∨ r.status = .completed ∨ r.status = .failed
        ∨ r.status = .cancelled) →
      appendRun r et ts = .error
        ("Cannot append events to run in \"" ++ runStatusStr r.status
          ++ "\" state"))
    ∧ (r.status = .running →
      ∃ ev r2, appendRun r et ts = .ok (ev, r2)
        ∧ r2.step = r.step + 1 ∧ r2.events = r.events ++ [ev]
        ∧ r2.status = .running) := by
  constructor
  · intro hs
    have hne : r.status ≠ .running := by
      rcases hs with h | h | h | h <;> simp [h]
    simp [appendRun, hne]
  · intro hs
    refine ⟨createEvent r.envelope.run_id r.envelope.agent_id r.step et ts,
      { r with
        events := r.events
          ++ [createEvent r.envelope.run_id r.envelope.agent_id r.step et ts]
        step := r.step + 1
        tool_calls :=
          if et = .tool_called then r.tool_calls + 1 else r.tool_calls
        artifacts_created :=
          if et = .artifact_created then r.artifacts_created + 1
          else r.artifacts_created
        errors := if et = .run_failed then r.errors + 1 else r.errors },
      ?_, rfl, rfl, hs⟩
    simp [appendRun, hs, recordEvent]

/-- Witness for C6: appending `tool.called` to a running run. -/
theorem append_guard_witness :
    (sampleRunningRun.status = .running)
    ∧ (∃ ev r2, appendRun sampleRunningRun .tool_called "t2" = .ok (ev, r2)
        ∧ r2.step = sampleRunningRun.step + 1
        ∧ r2.events = sampleRunningRun.events ++ [ev]
        ∧ r2.status = .running) :=
  ⟨by decide, (append_guard sampleRunningRun .tool_called "t2").2 (by decide)⟩

/-- Appending one event changes a type's count by 1 exactly when the
types agree. -/
theorem count_snoc (l : List BaseEvent) (e : BaseEvent) (et : EventType) :
    ((l ++ [e]).filter (fun x => x.event == et)).length
      = (l.filter (fun x => x.event == et)).length
        + (if e.event = et then 1 else 0) := by
  by_cases h : e.event = et
  · simp [List.filter_append, List.filter_cons, h]
  · simp [List.filter_append, List.filter_cons, h]

/-- A successful transition only rewrites the status field. -/
theorem transitionRun_ok {r r1 : RunState} {dst : RunStatus}
    (h : transitionRun r dst = .ok r1) : r1 = { r with status := dst } := by
  unfold transitionRun at h
  split at h
  · exact (Except.ok.inj h).symm
  · cases h

/-- A fresh run's counters match its (empty) event log. -/
theorem countersMatch_create (env : RunEnvelope) :
    CountersMatch (createState env) := ⟨rfl, rfl, rfl⟩

/-- The `start` and `append` preserve the counter/event-log agreement. -/
theorem countersMatch_applyRunOp {r r' : RunState} {op : RunOp}
    (h : CountersMatch r) (hap : applyRunOp r op = .ok r') :
    CountersMatch r' := by
  obtain ⟨h1, h2, h3⟩ := h
  cases op with
  | opStart ts =>
    simp only [applyRunOp, startState] at hap
    cases htr : transitionRun r .running with
    | error e => rw [htr] at hap; cases hap
    | ok r1 =>
      rw [htr] at hap
      have hr1 := transitionRun_ok htr
      subst hr1
      injection hap with hap
      subst hap
      refine ⟨?_, ?_, ?_⟩ <;>
        simp [CountersMatch, countEvents, recordEvent, createEvent, count_snoc,
          h1, h2, h3]
  | opAppend et ts =>
    simp only [applyRunOp, appendRun] at hap
    split at hap
    · cases hap
    · rename_i p heq
      injection hap with hap
      subst hap
      split at heq
      · cases heq
      · injection heq with heq
        subst heq
        refine ⟨?_, ?_, ?_⟩ <;>
          by_cases he : et = .tool_called <;>
          by_cases he2 : et = .artifact_created <;>
          by_cases he3 : et = .run_failed <;>
          simp_all [recordEvent, createEvent, countEvents, count_snoc]

/-- Any run driven from creation by `start`/`append` keeps its counters
equal to the event-log counts. -/
theorem countersMatch_applyRunOps {r r' : RunState} {ops : List RunOp}
    (h : CountersMatch r) (hap : applyRunOps r ops = .ok r') :
    CountersMatch r' := by
  induction ops generalizing r with
  | nil => cases hap; exact h
  | cons op ops ih =>
    simp only [applyRunOps] at hap
    cases hop : applyRunOp r op with
    | error e => rw [hop] at hap; cases hap
    | ok r1 =>
      rw [hop] at hap
      exact ih (countersMatch_applyRunOp h hop) hap

/-- Counterexample for C7 as frozen: a run started and then failed with no
prior `run.failed` appends gets summary `errors = 1`, yet zero `run.failed`
events were appended before the terminal transition (`fail` itself bumps
the counter once more). -/
theorem runSummary_roundtrip_cex :
    countEvents c7StartedRun .run_failed = 0
    ∧ ∃ s r2, failRun (fun _ => 0) 0 c7StartedRun "t2" sampleErr = .ok (s, r2)
        ∧ s.errors = 1 :=
  ⟨by decide, ⟨_, _, rfl, by decide⟩⟩

/-- C7 (amended): for every run driven from creation by `start`/`append`,
the summary returned by `complete` or `cancel` reports exactly the number
of `tool.called`, `artifact.created` and `run.failed` events appended
before the terminal transition; the summary returned by `fail` reports the
first two identically but one more than the appended `run.failed` count,
because `fail` itself increments the error counter. -/
theorem runSummary_roundtrip_amended (env : RunEnvelope) (ops : List RunOp)
    (dateMs : String → Int) (nowMs : Int) (ts : String) (err : StructuredError)
    (r : RunState) (h : applyRunOps (createState env) ops = .ok r) :
    (∀ s r2, completeRun dateMs nowMs r ts = .ok (s, r2) →
      s.tool_calls = countEvents r .tool_called
        ∧ s.artifacts_created = countEvents r .artifact_created
        ∧ s.errors = countEvents r .run_failed)
    ∧ (∀ s r2, cancelRun dateMs nowMs r ts = .ok (s, r2) →
      s.tool_calls = countEvents r .tool_called
        ∧ s.artifacts_created = countEvents r .artifact_created
        ∧ s.errors = countEvents r .run_failed)
    ∧ (∀ s r2, failRun dateMs nowMs r ts err = .ok (s, r2) →
      s.tool_calls = countEvents r .tool_called
        ∧ s.artifacts_created = countEvents r .artifact_created
        ∧ s.errors = countEvents r .run_failed + 1) := by
  obtain ⟨h1, h2, h3⟩ := countersMatch_applyRunOps (countersMatch_create env) h
  refine ⟨?_, ?_, ?_⟩
  · intro s r2 hok
    simp only [completeRun] at hok
    cases htr : transitionRun r .completed with
    | error e => rw [htr] at hok; cases hok
    | ok r1 =>
      rw [htr] at hok
      have := transitionRun_ok htr
      subst this
      injection hok with hok
      have hs : s = (Prod.mk s r2).1 := rfl
      rw [hs, ← hok]
      exact ⟨h1, h2, h3⟩
  · intro s r2 hok
    simp only [cancelRun] at hok
    cases htr : transitionRun r .cancelled with
    | error e => rw [htr] at hok; cases hok
    | ok r1 =>
      rw [htr] at hok
      have := transitionRun_ok htr
      subst this
      injection hok with hok
      have hs : s = (Prod.mk s r2).1 := rfl
      rw [hs, ← hok]
      exact ⟨h1, h2, h3⟩
  · intro s r2 hok
    simp only [failRun] at hok
    cases htr : transitionRun r .failed with
    | error e => rw [htr] at hok; cases hok
    | ok r1 =>
      rw [htr] at hok
      have := transitionRun_ok htr
      subst this
      injection hok with hok
      have hs : s = (Prod.mk s r2).1 := rfl
      rw [hs, ← hok]
      exact ⟨h1, h2, congrArg (· + 1) h3⟩

/-- Witness for C7 (amended) at a concretely driven run. -/
theorem runSummary_roundtrip_amended_witness :
    (applyRunOps (createState sampleEnv) c7Ops = .ok c7Run)
    ∧ ((∀ s r2, completeRun (fun _ => 0) 0 c7Run "t9" = .ok (s, r2) →
        s.tool_calls = countEvents c7Run .tool_called
          ∧ s.artifacts_created = countEvents c7Run .artifact_created
          ∧ s.errors = countEvents c7Run .run_failed)
      ∧ (∀ s r2, cancelRun (fun _ => 0) 0 c7Run "t9" = .ok (s, r2) →
        s.tool_calls = countEvents c7Run .tool_called
          ∧ s.artifacts_created = countEvents c7Run .artifact_created
          ∧ s.errors = countEvents c7Run .run_failed)
      ∧ (∀ s r2, failRun (fun _ => 0) 0 c7Run "t9" sampleErr = .ok (s, r2) →
        s.tool_calls = countEvents c7Run .tool_called
          ∧ s.artifacts_created = countEvents c7Run .artifact_created
          ∧ s.errors = countEvents c7Run .run_failed + 1)) :=
  ⟨by rfl,
    runSummary_roundtrip_amended sampleEnv c7Ops (fun _ => 0) 0 "t9" sampleErr
      c7Run (by rfl)⟩

/-- Keys behave like a JS `Map`: `set` then `get` of the same key. -/
theorem mapGet_set_self {α : Type} (l : List (String × α)) (k : String)
    (v : α) : mapGet (mapSet l k v) k = some v := by
  induction l with
  | nil => simp [mapSet, mapGet, List.find?]
  | cons p rest ih =>
    by_cases hk : p.1 = k
    · simp [mapSet, hk, mapGet, List.find?]
    · simp only [mapSet]
      rw [if_neg ?_]
      · simp only [mapGet, List.find?]
        rw [show (p.1 == k) = false from beq_eq_false_iff_ne.mpr hk]
        exact ih
      · exact hk

/-- C8 behaviour of `start`: unknown id → not-found error; pending run →
one `run.started` event appended, `started_at` stamped, status running —
and the returned event consists of exactly the five `createEvent` fields
(run id, step id, event tag, timestamp, agent id): no envelope copy is
attached, contrary to the declared `RunStartedEvent` protocol type; a
non-pending run → invalid-transition error. -/
theorem startRun_behavior (m : RunManager) (runId ts : String) :
    (mgrGet m runId = none → startRun m runId ts = .error (notFoundMsg runId))
    ∧ (∀ r, mgrGet m runId = some r → r.status = .pending →
        ∃ ev m2, startRun m runId ts = .ok (ev, m2)
          ∧ ev = { run_id := r.envelope.run_id, step_id := r.step
                   event := .run_started, timestamp := ts
                   agent_id := r.envelope.agent_id }
          ∧ mgrGet m2 runId = some
              { r with status := .running, started_at := some ts
                       step := r.step + 1
                       events := r.events ++ [ev] })
    ∧ (∀ r, mgrGet m runId = some r → r.status ≠ .pending →
        startRun m runId ts = .error (invalidTransitionMsg r .running)) := by
  refine ⟨?_, ?_, ?_⟩
  · intro hget
    simp [startRun, mgrGet] at hget ⊢
    rw [show mapGet m.runs runId = none from hget]
  · intro r hget hs
    have hcan : canTransition r.status .running = true := by
      rw [hs]; rfl
    refine ⟨{ run_id := r.envelope.run_id, step_id := r.step
              event := .run_started, timestamp := ts
              agent_id := r.envelope.agent_id },
      ⟨mapSet m.runs runId
        { r with status := .running, started_at := some ts
                 step := r.step + 1
                 events := r.events
                   ++ [{ run_id := r.envelope.run_id, step_id := r.step
                         event := .run_started, timestamp := ts
                         agent_id := r.envelope.agent_id }] }⟩,
      ?_, rfl, ?_⟩
    · simp only [startRun, mgrGet] at hget ⊢
      rw [hget]
      simp [startState, transitionRun, hcan, recordEvent, createEvent]
    · exact mapGet_set_self ..
  · intro r hget hs
    have hcan : canTransition r.status .running = false := by
      cases hst : r.status <;> first | exact absurd hst hs | rfl
    simp only [startRun, mgrGet] at hget ⊢
    rw [hget]
    simp [startState, transitionRun, hcan, invalidTransitionMsg]

/-- Witness for C8 at the sample manager holding one pending run. -/
theorem startRun_behavior_witness :
    (mgrGet sampleMgr "run-001" = some (createState sampleEnv))
    ∧ ((createState sampleEnv).status = .pending)
    ∧ (∃ ev m2, startRun sampleMgr "run-001" "t1" = .ok (ev, m2)
        ∧ ev = { run_id := (createState sampleEnv).envelope.run_id
                 step_id := (createState sampleEnv).step
                 event := .run_started, timestamp := "t1"
                 agent_id := (createState sampleEnv).envelope.agent_id }
        ∧ mgrGet m2 "run-001" = some
            { createState sampleEnv with
              status := .running, started_at := some "t1"
              step := (createState sampleEnv).step + 1
              events := (createState sampleEnv).events ++ [ev] }) :=
  ⟨by decide, by decide,
    (startRun_behavior sampleMgr "run-001" "t1").2.1 (createState sampleEnv)
      (by decide) (by decide)⟩

/-- C10: `buildControlState` counts every input run in exactly one bucket,
so `active_runs + completed_runs` equals the number of input runs. -/
theorem buildControlState_partition (input : StateInput) :
    (buildControlState input).active_runs
      + (buildControlState input).completed_runs = input.runs.length := by
  simpa [buildControlState] using filter_status_partition input.runs

/-- Every key of `mapSet l k v` is a key of `l` or is `k`. -/
theorem mapKeys_set_subset {α : Type} (l : List (String × α)) (k x : String)
    (v : α) (hx : x ∈ (mapSet l k v).map (·.1)) : x ∈ l.map (·.1) ∨ x = k := by
  induction l with
  | nil =>
    rw [show mapSet ([] : List (String × α)) k v = [(k, v)] from rfl] at hx
    simp only [List.map_cons, List.map_nil, List.mem_singleton] at hx
    exact Or.inr hx
  | cons p rest ih =>
    simp only [mapSet] at hx
    by_cases hk : p.1 = k
    · rw [if_pos hk] at hx
      simp only [List.map_cons, List.mem_cons] at hx
      rcases hx with rfl | hx
      · exact Or.inr rfl
      · exact Or.inl (by
          simp only [List.map_cons, List.mem_cons]
          exact Or.inr hx)
    · rw [if_neg hk] at hx
      simp only [List.map_cons, List.mem_cons] at hx
      rcases hx with rfl | hx
      · exact Or.inl (by simp [List.map_cons, List.mem_cons])
      · rcases ih hx with h | h
        · exact Or.inl (by
            simp only [List.map_cons, List.mem_cons]
            exact Or.inr h)
        · exact Or.inr h

/-- The `mapSet` keeps the key list duplicate-free. -/
theorem mapKeys_set_nodup {α : Type} {l : List (String × α)} (k : String)
    (v : α) (h : (l.map (·.1)).Nodup) : ((mapSet l k v).map (·.1)).Nodup := by
  induction l with
  | nil => simp [mapSet]
  | cons p rest ih =>
    simp only [List.map_cons, List.nodup_cons] at h
    by_cases hk : p.1 = k
    · simp only [mapSet, if_pos hk, List.map_cons, List.nodup_cons]
      exact ⟨hk ▸ h.1, h.2⟩
    · simp only [mapSet, if_neg hk, List.map_cons, List.nodup_cons]
      refine ⟨?_, ih h.2⟩
      intro hmem
      rcases mapKeys_set_subset rest k p.1 v hmem with hm | hm
      · exact h.1 hm
      · exact hk hm

/-- A key absent from a map has an empty filter slice. -/
theorem filter_key_eq_nil {α : Type} {l : List (String × α)} {k : String}
    (h : k ∉ l.map (·.1)) : l.filter (fun p => p.1 == k) = [] := by
  induction l with
  | nil => rfl
  | cons p rest ih =>
    simp only [List.map_cons, List.mem_cons, not_or] at h
    rw [List.filter_cons,
      show (p.1 == k) = false from beq_eq_false_iff_ne.mpr fun hpk => h.1 hpk.symm]
    exact ih h.2

/-- In a duplicate-free map, the slice of a bound key is exactly its
binding. -/
theorem filter_key_of_get {α : Type} {l : List (String × α)} {k : String}
    {v : α} (hn : (l.map (·.1)).Nodup) (hg : mapGet l k = some v) :
    l.filter (fun p => p.1 == k) = [(k, v)] := by
  induction l with
  | nil => simp [mapGet] at hg
  | cons p rest ih =>
    simp only [List.map_cons, List.nodup_cons] at hn
    by_cases hk : p.1 = k
    · have hv : p.2 = v := by
        simp [mapGet, List.find?, beq_iff_eq.mpr hk] at hg
        exact hg
      have hknotin : k ∉ rest.map (·.1) := by rw [← hk]; exact hn.1
      rw [List.filter_cons, show (p.1 == k) = true from beq_iff_eq.mpr hk,
        filter_key_eq_nil hknotin]
      simp [Prod.ext_iff, hk, hv]
    · have hg2 : mapGet rest k = some v := by
        simpa [mapGet, List.find?,
          show (p.1 == k) = false from beq_eq_false_iff_ne.mpr hk] using hg
      rw [List.filter_cons,
        show (p.1 == k) = false from beq_eq_false_iff_ne.mpr hk]
      exact ih hn.2 hg2

/-- In a duplicate-free map, after `mapSet` the slice of the written key
is exactly the new binding. -/
theorem filter_key_set {α : Type} {l : List (String × α)} (k : String) (v : α)
    (hn : (l.map (·.1)).Nodup) :
    (mapSet l k v).filter (fun p => p.1 == k) = [(k, v)] :=
  filter_key_of_get (mapKeys_set_nodup k v hn) (mapGet_set_self l k v)

/-- Each hex digit of a nibble is a lowercase hex character. -/
theorem hexDigit_isHex {m : Nat} (h : m < 16) : isHexChar (hexDigit m) = true := by
  interval_cases m <;> decide

/-- A word renders as exactly 8 characters. -/
theorem wordHex_length (w : Nat) : (wordHex w).length = 8 := by
  simp [wordHex, String.length]

/-- Every character of a rendered word is a hex character. -/
theorem wordHex_chars (w : Nat) : ∀ c ∈ (wordHex w).data, isHexChar c = true := by
  intro c hc
  simp only [wordHex, String.data] at hc
  obtain ⟨i, _, rfl⟩ := List.mem_map.mp hc
  exact hexDigit_isHex (Nat.mod_lt _ (by norm_num))

/-- The digest is 64 characters long. -/
theorem sha256Hex_length (msg : List Nat) : (sha256Hex msg).length = 64 := by
  simp [sha256Hex, String.length_append, wordHex_length]

/-- Every character of the digest is a lowercase hex character. -/
theorem sha256Hex_chars (msg : List Nat) :
    ∀ c ∈ (sha256Hex msg).data, isHexChar c = true := by
  intro c hc
  simp only [sha256Hex, String.data_append, List.mem_append] at hc
  rcases hc with ((((((h | h) | h) | h) | h) | h) | h) | h <;>
    exact wordHex_chars _ _ h

/-- C9 (amended): storing the same bytes twice — from a well-formed store,
with distinct run ids — returns byte-equal handles of the canonical
`artifact://sha256/<64-hex>` form, performs no backend write on the second
store, leaves exactly one backend entry for the content (holding the
stored bytes when the content was fresh), leaves exactly one metadata
entry for the content and it is attributed to the most recent storer `r2`,
so that entry is excluded from `listByRun r1`. -/
theorem artifact_dedup (st0 : ArtifactStore) (b : List Nat)
    (m1 m2 r1 r2 ts1 ts2 : String) (hwf : StoreWF st0) (hne : r1 ≠ r2) :
    ((storeArtifact st0 b m1 r1 ts1).1
      = (storeArtifact (storeArtifact st0 b m1 r1 ts1).2 b m2 r2 ts2).1)
    ∧ (storeArtifact st0 b m1 r1 ts1).1 = artifactHandle (sha256Hex b)
    ∧ (sha256Hex b).length = 64
    ∧ (∀ c ∈ (sha256Hex b).data, isHexChar c = true)
    ∧ (storeArtifact (storeArtifact st0 b m1 r1 ts1).2 b m2 r2 ts2).2.backend
        = (storeArtifact st0 b m1 r1 ts1).2.backend
    ∧ ((storeArtifact (storeArtifact st0 b m1 r1 ts1).2 b m2 r2
        ts2).2.backend.filter (fun p => p.1 == sha256Hex b)).length = 1
    ∧ (mapHas st0.backend (sha256Hex b) = false →
        (storeArtifact (storeArtifact st0 b m1 r1 ts1).2 b m2 r2
          ts2).2.backend.filter (fun p => p.1 == sha256Hex b)
          = [(sha256Hex b, b)])
    ∧ ((storeArtifact (storeArtifact st0 b m1 r1 ts1).2 b m2 r2
        ts2).2.metadata.filter (fun p => p.1 == sha256Hex b))
        = [(sha256Hex b,
            { handle := artifactHandle (sha256Hex b), size := b.length
              mime := m2, created_at := ts2, run_id := r2 })]
    ∧ ({ handle := artifactHandle (sha256Hex b), size := b.length
         mime := m2, created_at := ts2, run_id := r2 } : ArtifactMetadata)
        ∉ listByRun (storeArtifact (storeArtifact st0 b m1 r1 ts1).2 b m2 r2
            ts2).2 r1 := by
  obtain ⟨hnb, hnm⟩ := hwf
  have hst1b : (storeArtifact st0 b m1 r1 ts1).2.backend
      = (if mapHas st0.backend (sha256Hex b) then st0.backend
         else mapSet st0.backend (sha256Hex b) b) := rfl
  have hst1m : (storeArtifact st0 b m1 r1 ts1).2.metadata
      = mapSet st0.metadata (sha256Hex b)
          { handle := artifactHandle (sha256Hex b), size := b.length
            mime := m1, created_at := ts1, run_id := r1 } := rfl
  have hb1has : mapHas (storeArtifact st0 b m1 r1 ts1).2.backend
      (sha256Hex b) = true := by
    rw [hst1b]
    by_cases hb : mapHas st0.backend (sha256Hex b)
    · rw [if_pos hb]
      exact hb
    · simp only [hb, if_false, Bool.false_eq_true]
      simp [mapHas, mapGet_set_self]
  have hback2 : (storeArtifact (storeArtifact st0 b m1 r1 ts1).2 b m2 r2
      ts2).2.backend = (storeArtifact st0 b m1 r1 ts1).2.backend := by
    show (if mapHas (storeArtifact st0 b m1 r1 ts1).2.backend (sha256Hex b)
        then (storeArtifact st0 b m1 r1 ts1).2.backend
        else mapSet (storeArtifact st0 b m1 r1 ts1).2.backend (sha256Hex b) b)
      = (storeArtifact st0 b m1 r1 ts1).2.backend
    rw [hb1has]
    simp
  have hnb1 : ((storeArtifact st0 b m1 r1 ts1).2.backend.map (·.1)).Nodup := by
    rw [hst1b]
    by_cases hb : mapHas st0.backend (sha256Hex b)
    · rw [if_pos hb]
      exact hnb
    · simp only [hb, if_false, Bool.false_eq_true]
      exact mapKeys_set_nodup _ _ hnb
  have hfilterb : ((storeArtifact (storeArtifact st0 b m1 r1 ts1).2 b m2 r2
      ts2).2.backend.filter (fun p => p.1 == sha256Hex b)).length = 1 := by
    rw [hback2]
    obtain ⟨v, hv⟩ := Option.isSome_iff_exists.mp hb1has
    rw [filter_key_of_get hnb1 hv]
    rfl
  have hfilterbfresh : mapHas st0.backend (sha256Hex b) = false →
      (storeArtifact (storeArtifact st0 b m1 r1 ts1).2 b m2 r2
        ts2).2.backend.filter (fun p => p.1 == sha256Hex b)
        = [(sha256Hex b, b)] := by
    intro hb
    rw [hback2, hst1b, hb]
    simp only [Bool.false_eq_true, if_false]
    exact filter_key_set _ _ hnb
  have hst2m : (storeArtifact (storeArtifact st0 b m1 r1 ts1).2 b m2 r2
      ts2).2.metadata
      = mapSet (storeArtifact st0 b m1 r1 ts1).2.metadata (sha256Hex b)
          { handle := artifactHandle (sha256Hex b), size := b.length
            mime := m2, created_at := ts2, run_id := r2 } := rfl
  have hnm1 : ((storeArtifact st0 b m1 r1 ts1).2.metadata.map (·.1)).Nodup := by
    rw [hst1m]
    exact mapKeys_set_nodup _ _ hnm
  have hfilterm : ((storeArtifact (storeArtifact st0 b m1 r1 ts1).2 b m2 r2
      ts2).2.metadata.filter (fun p => p.1 == sha256Hex b))
      = [(sha256Hex b,
          { handle := artifactHandle (sha256Hex b), size := b.length
            mime := m2, created_at := ts2, run_id := r2 })] := by
    rw [hst2m]
    exact filter_key_set _ _ hnm1
  refine ⟨rfl, rfl, sha256Hex_length b, sha256Hex_chars b, hback2, hfilterb,
    hfilterbfresh, hfilterm, ?_⟩
  intro hmem
  have hpred := (List.mem_filter.mp hmem).2
  simp only [beq_iff_eq] at hpred
  exact hne hpred.symm

/-- Counterexample for C9 as frozen: with equal run identifiers
(`r1 = r2 = "r1"`, which the claim explicitly allows), the metadata entry
for the twice-stored content is *included* in `listByRun "r1"` after the
second store, not excluded. -/
theorem artifact_dedup_cex :
    ∃ md ∈ listByRun
        (storeArtifact (storeArtifact emptyStore [1, 2, 3] "text/plain" "r1"
          "t1").2 [1, 2, 3] "text/plain" "r1" "t2").2 "r1",
      md.handle = artifactHandle (sha256Hex [1, 2, 3]) := by decide

/-- Witness for C9 (amended) at concrete bytes and distinct run ids. -/
theorem artifact_dedup_witness :
    StoreWF emptyStore
    ∧ ("r1" : String) ≠ "r2"
    ∧ (((storeArtifact emptyStore [1, 2, 3] "text/plain" "r1" "t1").1
        = (storeArtifact (storeArtifact emptyStore [1, 2, 3] "text/plain" "r1"
            "t1").2 [1, 2, 3] "text/plain" "r2" "t2").1)
      ∧ (storeArtifact emptyStore [1, 2, 3] "text/plain" "r1" "t1").1
          = artifactHandle (sha256Hex [1, 2, 3])
      ∧ (sha256Hex [1, 2, 3]).length = 64
      ∧ (∀ c ∈ (sha256Hex [1, 2, 3]).data, isHexChar c = true)
      ∧ (storeArtifact (storeArtifact emptyStore [1, 2, 3] "text/plain" "r1"
          "t1").2 [1, 2, 3] "text/plain" "r2" "t2").2.backend
          = (storeArtifact emptyStore [1, 2, 3] "text/plain" "r1" "t1").2.backend
      ∧ ((storeArtifact (storeArtifact emptyStore [1, 2, 3] "text/plain" "r1"
          "t1").2 [1, 2, 3] "text/plain" "r2"
          "t2").2.backend.filter (fun p => p.1 == sha256Hex [1, 2, 3])).length = 1
      ∧ (mapHas emptyStore.backend (sha256Hex [1, 2, 3]) = false →
          (storeArtifact (storeArtifact emptyStore [1, 2, 3] "text/plain" "r1"
            "t1").2 [1, 2, 3] "text/plain" "r2"
            "t2").2.backend.filter (fun p => p.1 == sha256Hex [1, 2, 3])
            = [(sha256Hex [1, 2, 3], [1, 2, 3])])
      ∧ ((storeArtifact (storeArtifact emptyStore [1, 2, 3] "text/plain" "r1"
          "t1").2 [1, 2, 3] "text/plain" "r2"
          "t2").2.metadata.filter (fun p => p.1 == sha256Hex [1, 2, 3]))
          = [(sha256Hex [1, 2, 3],
              { handle := artifactHandle (sha256Hex [1, 2, 3])
                size := List.length [1, 2, 3]
                mime := "text/plain", created_at := "t2", run_id := "r2" })]
      ∧ ({ handle := artifactHandle (sha256Hex [1, 2, 3])
           size := List.length [1, 2, 3]
           mime := "text/plain", created_at := "t2"
           run_id := "r2" } : ArtifactMetadata)
          ∉ listByRun (storeArtifact (storeArtifact emptyStore [1, 2, 3]
              "text/plain" "r1" "t1").2 [1, 2, 3] "text/plain" "r2" "t2").2 "r1") :=
  ⟨⟨List.nodup_nil, List.nodup_nil⟩, by decide,
    artifact_dedup emptyStore [1, 2, 3] "text/plain" "text/plain" "r1" "r2"
      "t1" "t2" ⟨List.nodup_nil, List.nodup_nil⟩ (by decide)⟩

end AgentKernel
